import Mathlib

/-!
Verification of the listing-criteria resolver of ifreddyrondon/bastion
(middleware/listing: paging, sorting, filtering, assembler).

The repository snapshot contains the test file of the middleware
(middleware/params_test.go) and unrelated framework glue, but not the
implementation files of the listing middleware themselves.  Every
definition below is therefore modelled from the specification
(spec.md sections 3, 4, 6, 7), kept consistent with the behaviour that
the tests of the repository pin down.
-/

set_option autoImplicit false

namespace Bastion

/-- Modelled from the spec: the input is "a mapping of query-string keys to
string values (already percent-decoded)"; url.Values in Go can hold several
values per key, so we model the query as an ordered association list. -/
def Query := List (String × String)

/-- Modelled from the spec: first value bound to a key, as `url.Values.Get`
returns it in Go; `none` when the key is absent. -/
def getQ : Query → String → Option String
  | [], _ => none
  | (k, v) :: rest, key => if k = key then some v else getQ rest key

/-- Modelled from the spec: every value bound to a key, in query order. -/
def getAllQ (q : Query) (key : String) : List String :=
  (q.filter (fun p => p.fst = key)).map Prod.snd

/-- Modelled from the spec: the query-string grammar for a filter key is
`<filterId>=<value>[,<value>...]`, so each bound value is split on commas. -/
def requestedValues (q : Query) (key : String) : List String :=
  (getAllQ q key).flatMap (fun s => s.splitOn ",")

/-- Modelled from the spec: "each present value must parse as a non-negative
integer"; digits-only decimal parse, `none` on anything else. -/
def parseNonNegInt (s : String) : Option Nat :=
  let cs := s.toList
  if cs.isEmpty then none
  else if cs.all Char.isDigit then
    some (cs.foldl (fun acc c => acc * 10 + (c.toNat - 48)) 0)
  else none

/-- Modelled from the spec: error taxonomy of section 7, all request-local. -/
inductive ValidationError where
  | invalidOffsetValue
  | invalidLimitValue
  | limitExceedsMaximum
  | unknownSortCriteria (id : String)
  | listingNotFound
  deriving DecidableEq, Repr

/-- Modelled from the spec: the user-visible message of each error
(sections 4.1, 4.3 and the test expectations in params_test.go). -/
def ValidationError.message : ValidationError → String
  | .invalidOffsetValue => "invalid offset value, must be a number"
  | .invalidLimitValue => "invalid limit value, must be a number"
  | .limitExceedsMaximum => "limit exceeds the configured max allowed limit"
  | .unknownSortCriteria id =>
    "there" ++ String.singleton (Char.ofNat 39) ++
      "s no order criteria with the id " ++ id
  | .listingNotFound => "listing not found in context"

/-- Modelled from the spec: "output on failure: a structured validation error
with fields {status: 400, error: "Bad Request", message: string}". -/
structure HTTPError where
  status : Nat
  error : String
  message : String
  deriving DecidableEq, Repr

/-- Modelled from the spec: how a validation failure is rendered to the
client as a 400 response body. -/
def render400 (e : ValidationError) : HTTPError :=
  ⟨400, "Bad Request", e.message⟩

/-- Modelled from the spec: PagingCriteria `{limit, offset, maxAllowedLimit}`
(Go struct paging.Paging). -/
structure Paging where
  limit : Nat
  offset : Nat
  maxAllowedLimit : Nat
  deriving DecidableEq, Repr

/-- Modelled from the spec: default limit (paging.DefaultLimit). -/
def DefaultLimit : Nat := 20

/-- Modelled from the spec: default offset (paging.DefaultOffset). -/
def DefaultOffset : Nat := 0

/-- Modelled from the spec: default ceiling (paging.DefaultMaxAllowedLimit). -/
def DefaultMaxAllowedLimit : Nat := 100

/-- Modelled from the spec: SortOption `{id, description}` (Go struct
sorting.Sort; `Sort` is a reserved word in Lean). -/
structure SortOption where
  id : String
  description : String
  deriving DecidableEq, Repr

/-- Modelled from the spec: sorting.NewSort constructor. -/
def NewSort (id description : String) : SortOption :=
  ⟨id, description⟩

/-- Modelled from the spec: SortingCriteria `{selected, available}` (Go
struct sorting.Sorting, field `Sort` being the selected option). -/
structure Sorting where
  sort : Option SortOption
  available : List SortOption
  deriving DecidableEq, Repr

/-- Modelled from the spec: FilterValue `{id, label}` (Go struct
filtering.Value). -/
structure Value where
  id : String
  label : String
  deriving DecidableEq, Repr

/-- Modelled from the spec: filtering.NewValue constructor. -/
def NewValue (id label : String) : Value :=
  ⟨id, label⟩

/-- Modelled from the spec: FilterDefinition `{id, name, kind, allowedValues}`
(Go struct filtering.Filter with fields ID, Name, Type, Values); an
AppliedFilter has the same shape with `Values` narrowed. -/
structure Filter where
  id : String
  name : String
  type : String
  values : List Value
  deriving DecidableEq, Repr

/-- Modelled from the spec: filtering.NewText declares a text filter with the
given allowed values. -/
def NewText (id name : String) (values : List Value) : Filter :=
  ⟨id, name, "text", values⟩

/-- Modelled from the spec: filtering.NewBoolean declares a boolean filter;
its allowed values are fixed to ids "true" and "false" carrying the two
given labels (as pinned by TestParamsMiddlewareOkWithOptions). -/
def NewBoolean (id name trueLabel falseLabel : String) : Filter :=
  ⟨id, name, "boolean", [⟨"true", trueLabel⟩, ⟨"false", falseLabel⟩]⟩

/-- Modelled from the spec: FilteringCriteria `{applied, available}` (Go
struct filtering.Filtering with fields Filters, Available). -/
structure Filtering where
  filters : List Filter
  available : List Filter
  deriving DecidableEq, Repr

/-- Modelled from the spec: ListingCriteria `{paging, sorting?, filtering?}`
(Go struct listing.Listing). -/
structure Listing where
  paging : Paging
  sorting : Option Sorting
  filtering : Option Filtering
  deriving DecidableEq, Repr

/-- Modelled from the spec: ListingConfig, accumulated by the Configuration
Builder at route-registration time. -/
structure ListingConfig where
  defaultLimit : Nat
  defaultOffset : Nat
  maxAllowedLimit : Nat
  declaredSorts : List SortOption
  declaredFilters : List Filter
  deriving DecidableEq, Repr

/-- Modelled from the spec: the initially-default ListingConfig the builder
starts from. -/
def defaultListingConfig : ListingConfig :=
  ⟨DefaultLimit, DefaultOffset, DefaultMaxAllowedLimit, [], []⟩

/-- Modelled from the spec: a functional option mutating the config
(middleware.Option / func(*listing)). -/
def ListingOption := ListingConfig → ListingConfig

/-- Modelled from the spec: middleware.Limit overrides the default limit. -/
def Limit (n : Nat) : ListingOption :=
  fun cfg => { cfg with defaultLimit := n }

/-- Modelled from the spec: middleware.MaxAllowedLimit overrides the ceiling
limit values may request. -/
def MaxAllowedLimit (n : Nat) : ListingOption :=
  fun cfg => { cfg with maxAllowedLimit := n }

/-- Modelled from the spec: middleware.Sort appends declared sort options,
accumulating across calls in call order. -/
def SortOpt (ss : List SortOption) : ListingOption :=
  fun cfg => { cfg with declaredSorts := cfg.declaredSorts ++ ss }

/-- Modelled from the spec: middleware.Filter appends declared filters,
accumulating across calls in call order. -/
def FilterOpt (fs : List Filter) : ListingOption :=
  fun cfg => { cfg with declaredFilters := cfg.declaredFilters ++ fs }

/-- Modelled from the spec: the Configuration Builder applies the sequence of
mutators left-to-right to the initially-default config
(middleware.Listing(...options)). -/
def buildConfig (opts : List ListingOption) : ListingConfig :=
  opts.foldl (fun cfg o => o cfg) defaultListingConfig

/-- Modelled from the spec: second half of the Paging Resolver, reached once
the offset resolved to `off`: a present `limit` must parse as a non-negative
integer (else InvalidLimitValue) and must not exceed cfg.maxAllowedLimit
(else LimitExceedsMaximum); an absent key falls back to cfg.defaultLimit. -/
def resolveLimit (q : Query) (cfg : ListingConfig) (off : Nat) :
    Except ValidationError Paging :=
  match getQ q "limit" with
  | none => .ok ⟨cfg.defaultLimit, off, cfg.maxAllowedLimit⟩
  | some s =>
    match parseNonNegInt s with
    | none => .error .invalidLimitValue
    | some lim =>
      if cfg.maxAllowedLimit < lim then .error .limitExceedsMaximum
      else .ok ⟨lim, off, cfg.maxAllowedLimit⟩

/-- Modelled from the spec: the Paging Resolver (paging.NewDefaults /
Paging decode). Offset is read first and reported first: a present value
must parse as a non-negative integer (else InvalidOffsetValue); an absent
key falls back to cfg.defaultOffset; then the limit is resolved. -/
def resolvePaging (q : Query) (cfg : ListingConfig) :
    Except ValidationError Paging :=
  match getQ q "offset" with
  | none => resolveLimit q cfg cfg.defaultOffset
  | some s =>
    match parseNonNegInt s with
    | none => .error .invalidOffsetValue
    | some off => resolveLimit q cfg off

/-- Modelled from the spec: the Sorting Resolver. Empty declaration turns the
feature off; no `sort` key selects the first declared option; a `sort` key
must case-sensitively equal a declared id, else UnknownSortCriteria. -/
def resolveSorting (q : Query) (declared : List SortOption) :
    Except ValidationError (Option Sorting) :=
  match declared with
  | [] => .ok none
  | d :: _ =>
    match getQ q "sort" with
    | none => .ok (some ⟨some d, declared⟩)
    | some v =>
      match declared.find? (fun s => s.id = v) with
      | some s => .ok (some ⟨some s, declared⟩)
      | none => .error (.unknownSortCriteria v)

/-- Modelled from the spec: the declared allowed values of one filter whose
id is among the values the query requests under the id of that filter
(case-sensitive match), in declared order. -/
def matchingValues (q : Query) (f : Filter) : List Value :=
  f.values.filter (fun v => (requestedValues q f.id).contains v.id)

/-- Modelled from the spec: a declared filter is omitted when no requested
value matches, and otherwise kept with the matching values only. -/
def narrowFilter (q : Query) (f : Filter) : Option Filter :=
  if (matchingValues q f).isEmpty then none
  else some { f with values := matchingValues q f }

/-- Modelled from the spec: the Filtering Resolver, which never fails:
`available` is the declaration verbatim and `applied` collects the
narrowed filters in declared order. -/
def resolveFiltering (q : Query) (declared : List Filter) : Filtering :=
  ⟨declared.filterMap (narrowFilter q), declared⟩

/-- Modelled from the spec: the Listing Criteria Assembler: paging first,
sorting second, each short-circuiting on its error, then filtering
(which cannot fail; it is off when no filter is declared). -/
def assemble (q : Query) (cfg : ListingConfig) :
    Except ValidationError Listing := do
  let p ← resolvePaging q cfg
  let s ← resolveSorting q cfg.declaredSorts
  let f :=
    if cfg.declaredFilters.isEmpty then none
    else some (resolveFiltering q cfg.declaredFilters)
  pure ⟨p, s, f⟩

/-- Modelled from the spec: the request context either carries the assembled
criteria under the well-known key or does not carry them at all. -/
def Ctx := Option Listing

/-- Modelled from the spec: middleware.GetListing retrieves the criteria from
the request context, failing with ListingNotFound when the assembler never
ran on the request path. -/
def GetListing : Ctx → Except ValidationError Listing
  | none => .error .listingNotFound
  | some l => .ok l

/-- Modelled from the spec: the context seen by downstream handlers after the
middleware processed the request: the assembled criteria on success,
nothing on a validation failure (the 400 short-circuits the chain). -/
def runMiddleware (q : Query) (cfg : ListingConfig) : Ctx :=
  match assemble q cfg with
  | .ok l => some l
  | .error _ => none

/-! ## Helper lemmas shared by the claim theorems -/

/-- Limit resolution, case analysis: when a present `limit` value parses
within the ceiling, the result is ok, the requested value is echoed and an
absent key falls back to the default. -/
theorem resolveLimit_cases (q : Query) (cfg : ListingConfig) (off : Nat)
    (hlim : ∀ s, getQ q "limit" = some s →
      ∃ n, parseNonNegInt s = some n ∧ n ≤ cfg.maxAllowedLimit) :
    ∃ lim, resolveLimit q cfg off = .ok ⟨lim, off, cfg.maxAllowedLimit⟩ ∧
      (getQ q "limit" = none → lim = cfg.defaultLimit) ∧
      (∀ s n, getQ q "limit" = some s → parseNonNegInt s = some n → lim = n) := by
  cases hq : getQ q "limit" with
  | none =>
    refine ⟨cfg.defaultLimit, ?_, fun _ => rfl, ?_⟩
    · simp [resolveLimit, hq]
    · intro s n h _
      exact Option.noConfusion h
  | some s =>
    obtain ⟨n, hn, hle⟩ := hlim s hq
    refine ⟨n, ?_, ?_, ?_⟩
    · simp [resolveLimit, hq, hn, Nat.not_lt.mpr hle]
    · intro h
      exact Option.noConfusion h
    · intro s0 n0 h h0
      injection h with h
      subst h
      rw [hn] at h0
      injection h0 with h0

/-- Offset resolution, case analysis: when every present `offset` value
parses, paging resolution reduces to limit resolution at an offset that
echoes the requested value or the default. -/
theorem resolvePaging_offset_cases (q : Query) (cfg : ListingConfig)
    (hoff : ∀ s, getQ q "offset" = some s → (parseNonNegInt s).isSome) :
    ∃ off, resolvePaging q cfg = resolveLimit q cfg off ∧
      (getQ q "offset" = none → off = cfg.defaultOffset) ∧
      (∀ s n, getQ q "offset" = some s → parseNonNegInt s = some n → off = n) := by
  cases hq : getQ q "offset" with
  | none =>
    refine ⟨cfg.defaultOffset, ?_, fun _ => rfl, ?_⟩
    · simp [resolvePaging, hq]
    · intro s n h _
      exact Option.noConfusion h
  | some s =>
    have h := hoff s hq
    cases hp : parseNonNegInt s with
    | none =>
      rw [hp] at h
      simp at h
    | some o =>
      refine ⟨o, ?_, ?_, ?_⟩
      · simp [resolvePaging, hq, hp]
      · intro h0
        exact Option.noConfusion h0
      · intro s0 n0 h0 h1
        injection h0 with h0
        subst h0
        rw [hp] at h1
        injection h1 with h1

/-- The applied list of the filtering resolver, rewritten as a filter of the
declaration followed by a narrowing map. -/
theorem filterMap_narrowFilter (q : Query) :
    ∀ declared : List Filter,
      declared.filterMap (narrowFilter q) =
        (declared.filter (fun f => !(matchingValues q f).isEmpty)).map
          (fun f => { f with values := matchingValues q f })
  | [] => rfl
  | f :: rest => by
    rw [List.filterMap_cons, List.filter_cons]
    cases h : (matchingValues q f).isEmpty with
    | true => simp [narrowFilter, h, filterMap_narrowFilter q rest]
    | false => simp [narrowFilter, h, filterMap_narrowFilter q rest]

/-! ## Claim theorems -/

/-- C1: the paging resolver rejects a requested limit strictly greater than
cfg.maxAllowedLimit with LimitExceedsMaximum and accepts any requested limit
not exceeding it; in particular limit=110 with a configured maxAllowedLimit
of 120 succeeds with limit 110 and maxAllowedLimit 120. -/
theorem paging_limit_ceiling (q : Query) (cfg : ListingConfig) (s : String)
    (n : Nat) (hoff : ∀ t, getQ q "offset" = some t → (parseNonNegInt t).isSome)
    (hq : getQ q "limit" = some s) (hn : parseNonNegInt s = some n) :
    (cfg.maxAllowedLimit < n →
      resolvePaging q cfg = .error .limitExceedsMaximum) ∧
    (n ≤ cfg.maxAllowedLimit →
      ∃ p, resolvePaging q cfg = .ok p ∧ p.limit = n ∧
        p.maxAllowedLimit = cfg.maxAllowedLimit) ∧
    resolvePaging [("limit", "110")] (buildConfig [MaxAllowedLimit 120]) =
      .ok ⟨110, 0, 120⟩ := by
  obtain ⟨off, heq, -, -⟩ := resolvePaging_offset_cases q cfg hoff
  refine ⟨?_, ?_, rfl⟩
  · intro hlt
    rw [heq]
    simp [resolveLimit, hq, hn, hlt]
  · intro hle
    rw [heq]
    exact ⟨⟨n, off, cfg.maxAllowedLimit⟩,
      by simp [resolveLimit, hq, hn, Nat.not_lt.mpr hle], rfl, rfl⟩

/-- C1 witness: limit 110 against a configured ceiling of 120. -/
theorem paging_limit_ceiling_witness :
    110 ≤ (buildConfig [MaxAllowedLimit 120]).maxAllowedLimit ∧
    ∃ p, resolvePaging [("limit", "110")] (buildConfig [MaxAllowedLimit 120]) =
        .ok p ∧ p.limit = 110 ∧
      p.maxAllowedLimit = (buildConfig [MaxAllowedLimit 120]).maxAllowedLimit :=
  ⟨by decide,
    (paging_limit_ceiling [("limit", "110")] (buildConfig [MaxAllowedLimit 120])
        "110" 110 (fun t h => by injection h) rfl rfl).2.1 (by decide)⟩

/-- C2: the assembler runs paging first, sorting second, filtering last,
returns the first error and never accumulates; with both paging and sorting
invalid, the paging error is the one returned. -/
theorem assemble_short_circuit (q : Query) (cfg : ListingConfig) :
    (∀ e, resolvePaging q cfg = .error e → assemble q cfg = .error e) ∧
    (∀ p e, resolvePaging q cfg = .ok p →
      resolveSorting q cfg.declaredSorts = .error e →
      assemble q cfg = .error e) ∧
    (∀ p st, resolvePaging q cfg = .ok p →
      resolveSorting q cfg.declaredSorts = .ok st →
      assemble q cfg = .ok ⟨p, st,
        if cfg.declaredFilters.isEmpty then none
        else some (resolveFiltering q cfg.declaredFilters)⟩) := by
  refine ⟨?_, ?_, ?_⟩
  · intro e h
    simp [assemble, h, Bind.bind, Except.bind]
  · intro p e hp hs
    simp [assemble, hp, hs, Bind.bind, Except.bind]
  · intro p st hp hs
    simp [assemble, hp, hs, Bind.bind, Except.bind, Pure.pure, Except.pure]

/-- C2 witness: offset and sort both invalid; the paging error is returned. -/
theorem assemble_short_circuit_witness :
    assemble [("offset", "abc"), ("sort", "foo")]
        (buildConfig [SortOpt [NewSort "created_at_desc" "d"]]) =
      .error .invalidOffsetValue :=
  (assemble_short_circuit [("offset", "abc"), ("sort", "foo")]
      (buildConfig [SortOpt [NewSort "created_at_desc" "d"]])).1
    .invalidOffsetValue rfl

/-- C3: the applied list holds exactly the declared filters with at least one
matching requested value, each narrowed to the matching requested values;
non-matching values are dropped and an applied filter with an empty value
set is never emitted. -/
theorem filtering_applied_characterization (q : Query) (declared : List Filter) :
    (resolveFiltering q declared).filters =
      (declared.filter (fun f => !(matchingValues q f).isEmpty)).map
        (fun f => { f with values := matchingValues q f }) ∧
    (resolveFiltering q declared).filters.all
      (fun g => !g.values.isEmpty) = true := by
  constructor
  · exact filterMap_narrowFilter q declared
  · show (declared.filterMap (narrowFilter q)).all _ = true
    rw [filterMap_narrowFilter q declared, List.all_eq_true]
    intro g hg
    rw [List.mem_map] at hg
    obtain ⟨f, hf, rfl⟩ := hg
    rw [List.mem_filter] at hf
    exact hf.2

/-- C4: with a non-empty declaration and no sort key in the query, sorting
succeeds with the first declared option selected and the full declaration
available in declaration order. -/
theorem sorting_default_first_declared (q : Query) (d : SortOption)
    (rest : List SortOption) (hq : getQ q "sort" = none) :
    resolveSorting q (d :: rest) = .ok (some ⟨some d, d :: rest⟩) := by
  simp [resolveSorting, hq]

/-- C4 witness: two declared sorts, no sort key in the query. -/
theorem sorting_default_first_declared_witness :
    resolveSorting [] [NewSort "created_at_desc" "Created date descending",
        NewSort "created_at_asc" "Created date ascendant"] =
      .ok (some ⟨some (NewSort "created_at_desc" "Created date descending"),
        [NewSort "created_at_desc" "Created date descending",
          NewSort "created_at_asc" "Created date ascendant"]⟩) :=
  sorting_default_first_declared []
    (NewSort "created_at_desc" "Created date descending")
    [NewSort "created_at_asc" "Created date ascendant"] rfl

/-- C5: with a sort key present, sorting fails with UnknownSortCriteria and a
message naming the value exactly when no declared id matches case-sensitively,
and succeeds with the matched option selected exactly when a match exists. -/
theorem sorting_exact_match (q : Query) (declared : List SortOption)
    (v : String) (hne : declared ≠ []) (hq : getQ q "sort" = some v) :
    ((∀ s ∈ declared, s.id ≠ v) →
      resolveSorting q declared = .error (.unknownSortCriteria v) ∧
      (ValidationError.unknownSortCriteria v).message =
        "there" ++ String.singleton (Char.ofNat 39) ++
          "s no order criteria with the id " ++ v) ∧
    (∀ s, declared.find? (fun t => t.id = v) = some s →
      resolveSorting q declared = .ok (some ⟨some s, declared⟩) ∧
      s.id = v ∧ s ∈ declared) ∧
    ((∃ s ∈ declared, s.id = v) ↔
      ∃ st, resolveSorting q declared = .ok st) := by
  obtain ⟨d, rest, rfl⟩ : ∃ d rest, declared = d :: rest := by
    cases declared with
    | nil => exact absurd rfl hne
    | cons d rest => exact ⟨d, rest, rfl⟩
  refine ⟨?_, ?_, ?_⟩
  · intro hnone
    have hfind : (d :: rest).find? (fun t => t.id = v) = none := by
      rw [List.find?_eq_none]
      intro s hs
      simp only [decide_eq_true_eq]
      exact hnone s hs
    exact ⟨by simp [resolveSorting, hq, hfind], rfl⟩
  · intro s hfind
    have hs := List.find?_some hfind
    have hmem := List.mem_of_find?_eq_some hfind
    simp only [decide_eq_true_eq] at hs
    exact ⟨by simp [resolveSorting, hq, hfind], hs, hmem⟩
  · constructor
    · rintro ⟨s, hmem, hid⟩
      have hsome : ((d :: rest).find? (fun t => t.id = v)).isSome := by
        rw [List.find?_isSome]
        exact ⟨s, hmem, by simp [hid]⟩
      obtain ⟨s0, hf⟩ := Option.isSome_iff_exists.mp hsome
      exact ⟨some ⟨some s0, d :: rest⟩, by simp [resolveSorting, hq, hf]⟩
    · rintro ⟨st, hok⟩
      by_contra hno
      push_neg at hno
      have hfind : (d :: rest).find? (fun t => t.id = v) = none := by
        rw [List.find?_eq_none]
        intro s hs
        simp only [decide_eq_true_eq]
        exact hno s hs
      simp [resolveSorting, hq, hfind] at hok

/-- C5 witness: sort foo_desc against a single declared sort option. -/
theorem sorting_exact_match_witness :
    resolveSorting [("sort", "foo_desc")]
        [NewSort "created_at_desc" "Created date descending"] =
      .error (.unknownSortCriteria "foo_desc") ∧
    (ValidationError.unknownSortCriteria "foo_desc").message =
      "there" ++ String.singleton (Char.ofNat 39) ++
        "s no order criteria with the id " ++ "foo_desc" :=
  (sorting_exact_match [("sort", "foo_desc")]
      [NewSort "created_at_desc" "Created date descending"] "foo_desc"
      (by decide) rfl).1 (by decide)

/-- C6: a present offset value that does not parse as a non-negative integer
fails with InvalidOffsetValue, rendered to the client as status 400, error
Bad Request, message "invalid offset value, must be a number". -/
theorem paging_invalid_offset (q : Query) (cfg : ListingConfig) (s : String)
    (hq : getQ q "offset" = some s) (hp : parseNonNegInt s = none) :
    resolvePaging q cfg = .error .invalidOffsetValue ∧
    render400 .invalidOffsetValue =
      ⟨400, "Bad Request", "invalid offset value, must be a number"⟩ :=
  ⟨by simp [resolvePaging, hq, hp], rfl⟩

/-- C6 witness: offset abc with a configured default limit of 50. -/
theorem paging_invalid_offset_witness :
    resolvePaging [("offset", "abc")] (buildConfig [Limit 50]) =
      .error .invalidOffsetValue ∧
    render400 .invalidOffsetValue =
      ⟨400, "Bad Request", "invalid offset value, must be a number"⟩ :=
  paging_invalid_offset [("offset", "abc")] (buildConfig [Limit 50]) "abc"
    rfl rfl

/-- C7: available equals the declaration verbatim, and every applied entry
bears the id of a declared filter with all its values drawn from the allowed
values of that declaration. -/
theorem filtering_available_verbatim (q : Query) (declared : List Filter) :
    (resolveFiltering q declared).available = declared ∧
    (resolveFiltering q declared).filters.all (fun g =>
      declared.any (fun f =>
        decide (g.id = f.id) &&
          g.values.all (fun v => decide (v ∈ f.values)))) = true := by
  constructor
  · rfl
  · show (declared.filterMap (narrowFilter q)).all _ = true
    rw [filterMap_narrowFilter q declared, List.all_eq_true]
    intro g hg
    rw [List.mem_map] at hg
    obtain ⟨f, hf, rfl⟩ := hg
    rw [List.mem_filter] at hf
    rw [List.any_eq_true]
    refine ⟨f, hf.1, ?_⟩
    rw [Bool.and_eq_true]
    refine ⟨by simp, ?_⟩
    rw [List.all_eq_true]
    intro v hv
    simp only [decide_eq_true_eq]
    exact List.mem_of_mem_filter hv

/-- C8: valid present values are echoed exactly, absent keys fall back to the
configured defaults, and the empty query yields the default paging. -/
theorem paging_echoes_valid_values (q : Query) (cfg : ListingConfig)
    (hoff : ∀ s, getQ q "offset" = some s → (parseNonNegInt s).isSome)
    (hlim : ∀ s, getQ q "limit" = some s →
      ∃ n, parseNonNegInt s = some n ∧ 1 ≤ n ∧ n ≤ cfg.maxAllowedLimit) :
    (∃ p, resolvePaging q cfg = .ok p ∧
      p.maxAllowedLimit = cfg.maxAllowedLimit ∧
      (getQ q "offset" = none → p.offset = cfg.defaultOffset) ∧
      (∀ s n, getQ q "offset" = some s → parseNonNegInt s = some n →
        p.offset = n) ∧
      (getQ q "limit" = none → p.limit = cfg.defaultLimit) ∧
      (∀ s n, getQ q "limit" = some s → parseNonNegInt s = some n →
        p.limit = n)) ∧
    resolvePaging [] cfg =
      .ok ⟨cfg.defaultLimit, cfg.defaultOffset, cfg.maxAllowedLimit⟩ := by
  constructor
  · obtain ⟨off, heq, hoffnone, hoffsome⟩ := resolvePaging_offset_cases q cfg hoff
    obtain ⟨lim, hleq, hlimnone, hlimsome⟩ :=
      resolveLimit_cases q cfg off (fun s hs => by
        obtain ⟨n, hn, _, hle⟩ := hlim s hs
        exact ⟨n, hn, hle⟩)
    refine ⟨⟨lim, off, cfg.maxAllowedLimit⟩, ?_, rfl, ?_, ?_, ?_, ?_⟩
    · rw [heq, hleq]
    · exact hoffnone
    · exact hoffsome
    · exact hlimnone
    · exact hlimsome
  · rfl

/-- C8 witness: offset 11 against the default configuration. -/
theorem paging_echoes_valid_values_witness :
    (∃ p, resolvePaging [("offset", "11")] defaultListingConfig = .ok p ∧
      p.maxAllowedLimit = defaultListingConfig.maxAllowedLimit ∧
      (getQ [("offset", "11")] "offset" = none →
        p.offset = defaultListingConfig.defaultOffset) ∧
      (∀ s n, getQ [("offset", "11")] "offset" = some s →
        parseNonNegInt s = some n → p.offset = n) ∧
      (getQ [("offset", "11")] "limit" = none →
        p.limit = defaultListingConfig.defaultLimit) ∧
      (∀ s n, getQ [("offset", "11")] "limit" = some s →
        parseNonNegInt s = some n → p.limit = n)) ∧
    resolvePaging [] defaultListingConfig =
      .ok ⟨defaultListingConfig.defaultLimit, defaultListingConfig.defaultOffset,
        defaultListingConfig.maxAllowedLimit⟩ :=
  paging_echoes_valid_values [("offset", "11")] defaultListingConfig
    (fun s h => by
      injection h with h
      subst h
      rfl)
    (fun s h => by injection h)

/-- C9: retrieval from a request context where the assembler never ran fails
with ListingNotFound ("listing not found in context"); after a successful
assembly, retrieval returns the assembled criteria. -/
theorem getListing_contract :
    GetListing none = .error .listingNotFound ∧
    ValidationError.listingNotFound.message = "listing not found in context" ∧
    ∀ q cfg l, assemble q cfg = .ok l →
      GetListing (runMiddleware q cfg) = .ok l := by
  refine ⟨rfl, rfl, ?_⟩
  intro q cfg l h
  simp [runMiddleware, h, GetListing]

/-- C9 witness: the empty query against the default configuration. -/
theorem getListing_contract_witness :
    GetListing (runMiddleware [] defaultListingConfig) =
      .ok ⟨⟨DefaultLimit, DefaultOffset, DefaultMaxAllowedLimit⟩, none, none⟩ :=
  getListing_contract.2.2 [] defaultListingConfig
    ⟨⟨DefaultLimit, DefaultOffset, DefaultMaxAllowedLimit⟩, none, none⟩ rfl

/-- C10: a boolean filter always exposes exactly the two fixed value ids
true and false, carrying the two given labels, whatever the arguments. -/
theorem newBoolean_fixed_ids (bid bname tl fl : String) :
    (NewBoolean bid bname tl fl).values = [⟨"true", tl⟩, ⟨"false", fl⟩] ∧
    (NewBoolean bid bname tl fl).type = "boolean" ∧
    (NewBoolean bid bname tl fl).values.map Value.id = ["true", "false"] ∧
    NewBoolean "shared" "test" "shared" "private" =
      ⟨"shared", "test", "boolean",
        [⟨"true", "shared"⟩, ⟨"false", "private"⟩]⟩ :=
  ⟨rfl, rfl, rfl, rfl⟩

end Bastion
